import Mathlib

/-!
Shallow embedding of `src/pynapple/io/interface_npz.py` (class `NPZFile`).

An NPZ container is a flat mapping from string keys to arrays.  We model an
array by its number of dimensions (`ndim`) together with the list of its
entries along the first axis; the claims only ever inspect entry values of
one-dimensional arrays (timestamps, group indices, data values, strings),
so entries are modelled as scalar elements (integers or strings).  `len(a)`
in python is the length of the first axis, i.e. `a.items.length` here.

`NPZFile.__init__` computes a classification string (`self.type`), modelled
by `classify`; `NPZFile.load` reconstructs a pynapple object, modelled by
`load`.  A missing key raises `KeyError` in python (the spec calls this
`MalformedContainerError` naming the missing key); we model it with
`LoadError.missingKey`.  The collaborator constructors (`nap.IntervalSet`,
`nap.Ts`, `nap.Tsd`, `nap.TsGroup`, ...) live in `pynapple.core`, which is
not part of the given sources; following the spec's collaborator contracts
(§6) they are modelled as plain records holding the arrays they are given.
-/

/-- A scalar entry of a container array: an integer or a string. -/
inductive NpElem where
  | i (z : Int)
  | s (v : String)
deriving DecidableEq, Repr

/-- An array value of the container: its number of dimensions together with
its entries along the first axis (scalar entries; the claims only read
entry values of one-dimensional arrays). -/
structure NpArray where
  ndim : Nat
  items : List NpElem
deriving DecidableEq, Repr

/-- A container: a flat mapping from string keys to arrays, modelled as an
association list (keys are unique in a real npz archive; lookup takes the
first binding). -/
abbrev Container := List (String × NpArray)

/-- `k in file.keys()` / `file[k]` succeeding: first binding of key `k`. -/
def lookupKey (file : Container) (k : String) : Option NpArray :=
  match file.find? (fun p => p.1 == k) with
  | some p => some p.2
  | none => none

/-- `k in self.file.keys()`. -/
def hasKey (file : Container) (k : String) : Bool :=
  (lookupKey file k).isSome

/-- `{...}.issubset(set(self.file.keys()))`. -/
def subsetKeys (req : List String) (file : Container) : Bool :=
  req.all (fun k => hasKey file k)

/-- The known-kind list `possible` of `NPZFile.__init__`. -/
def possible : List String :=
  ["Ts", "Tsd", "TsdFrame", "TsdTensor", "TsGroup", "IntervalSet"]

/-- The explicit-override check of `NPZFile.__init__` (lines 52-58):
the container has a key `type`, its array has length 1, its single entry is
a string scalar (hence the array is one-dimensional), and that string is in
`possible`.  Returns the adopted kind, or `none` when the check falls
through to structural inference. -/
def explicitType (file : Container) : Option String :=
  match lookupKey file "type" with
  | none => none
  | some a =>
    if a.items.length = 1 ∧ a.ndim = 1 then
      match a.items with
      | [NpElem.s v] => if v ∈ possible then some v else none
      | _ => none
    else none

/-- Default array used only to keep total-function plumbing for lookups the
source performs under a key-presence guard. -/
def emptyArr : NpArray := ⟨1, []⟩

/-- The classification computed by `NPZFile.__init__`: explicit override
first, then the ordered structural key-set patterns (lines 60-77).  The
source stores the string `"npz"` for an unrecognized container. -/
def classify (file : Container) : String :=
  match explicitType file with
  | some ty => ty
  | none =>
    if subsetKeys ["t", "start", "end", "index"] file then "TsGroup"
    else if subsetKeys ["t", "d", "start", "end", "columns"] file then "TsdFrame"
    else if subsetKeys ["t", "d", "start", "end"] file then
      if ((lookupKey file "d").getD emptyArr).ndim = 1 then "Tsd" else "TsdTensor"
    else if subsetKeys ["t", "start", "end"] file then "Ts"
    else if subsetKeys ["start", "end"] file then "IntervalSet"
    else "npz"

/-- Strict ascending order on scalar entries (integers before strings;
numpy arrays are homogeneous, so the cross case never arises in practice). -/
def NpElem.lt : NpElem → NpElem → Bool
  | .i a, .i b => decide (a < b)
  | .i _, .s _ => true
  | .s _, .i _ => false
  | .s a, .s b => decide (a < b)

/-- Insert an element into a strictly sorted list, keeping it strictly
sorted (duplicates are dropped). -/
def insertUniq (x : NpElem) : List NpElem → List NpElem
  | [] => [x]
  | y :: ys =>
    if NpElem.lt x y then x :: y :: ys
    else if x = y then y :: ys
    else y :: insertUniq x ys

/-- `np.unique(xs)`: the sorted list of distinct values of `xs`. -/
def npUnique (xs : List NpElem) : List NpElem :=
  xs.foldr insertUniq []

/-- Modelled from the spec: the TimeSupport collaborator
(`nap.IntervalSet(start, end)` from `pynapple.core`, not in the sources) is
"a validated non-overlapping interval set" built from the `start` and `end`
arrays; per §6 it is specified only as a contract, so it is modelled as the
record of the two boundary arrays. -/
structure TimeSupport where
  start : List NpElem
  stop : List NpElem
deriving DecidableEq, Repr

/-- Modelled from the spec: a member of a reconstructed group — `nap.Ts`
("a timestamp sequence bound to the TimeSupport") or `nap.Tsd`
("timestamps + data array bound to the TimeSupport"); the constructors
live in `pynapple.core`, not in the sources, and are modelled per §6 as
records of the arrays they are given. -/
inductive GroupMember where
  | ts (t : List NpElem) (support : TimeSupport)
  | tsd (t : List NpElem) (d : List NpElem) (support : TimeSupport)
deriving DecidableEq, Repr

/-- The timestamps of a group member. -/
def GroupMember.times : GroupMember → List NpElem
  | .ts t _ => t
  | .tsd t _ _ => t

/-- The time support a group member is bound to. -/
def GroupMember.support : GroupMember → TimeSupport
  | .ts _ su => su
  | .tsd _ _ su => su

/-- Modelled from the spec: the reconstructed pynapple objects returned by
`load` ("constructors for Ts, Tsd, TsdTensor, TsdFrame, TsGroup each
accepting a TimeSupport plus their respective data arrays", §6; the
TsGroup assembles the members keyed by identifier with validation bypassed
and carries the accepted metadata columns, §4.1).  `raw` is the container
itself, returned unchanged for an unrecognized kind. -/
inductive NapObject where
  | raw (file : Container)
  | intervalSet (support : TimeSupport)
  | ts (t : List NpElem) (support : TimeSupport)
  | tsd (t : List NpElem) (d : NpArray) (support : TimeSupport)
  | tsdTensor (t : List NpElem) (d : NpArray) (support : TimeSupport)
  | tsdFrame (t : List NpElem) (d : NpArray) (columns : List NpElem)
      (support : TimeSupport)
  | tsGroup (members : List (NpElem × GroupMember)) (metainfo : Container)
      (support : TimeSupport)
deriving DecidableEq, Repr

/-- A load failure: python's `KeyError` on a missing container key (the
spec's `MalformedContainerError` naming the missing key). -/
inductive LoadError where
  | missingKey (k : String)
deriving DecidableEq, Repr

/-- Outcome of `NPZFile.load`. -/
inductive LoadResult where
  | ok (obj : NapObject)
  | err (e : LoadError)
deriving DecidableEq, Repr

/-- `self.file[k]`: the array under key `k`, or a `KeyError`. -/
def getArr (file : Container) (k : String) : Except LoadError NpArray :=
  match lookupKey file k with
  | some a => Except.ok a
  | none => Except.error (LoadError.missingKey k)

/-- `times[index == k]` (and `data[index == k]`): the entries of `xs` at
the positions where the parallel `index` array equals `k`, in order. -/
def maskFilter (xs index : List NpElem) (k : NpElem) : List NpElem :=
  (xs.zip index).filterMap (fun p => if p.2 = k then some p.1 else none)

/-- Python dict assignment `g[k] = v`: overwrite in place if the key is
present, else append. -/
def dictInsert (g : List (NpElem × GroupMember)) (k : NpElem)
    (v : GroupMember) : List (NpElem × GroupMember) :=
  if g.any (fun p => p.1 == k) then
    g.map (fun p => if p.1 == k then (k, v) else p)
  else g ++ [(k, v)]

/-- The group identifiers used by the TsGroup branch of `NPZFile.load`
(lines 100-103): the `keys` array if present, else `np.unique(index)`. -/
def groupKeys (file : Container) (index : NpArray) : List NpElem :=
  match lookupKey file "keys" with
  | some a => a.items
  | none => npUnique index.items

/-- The reserved keys excluded from metadata candidates (lines 123-131). -/
def reservedKeys : List String :=
  ["start", "end", "t", "index", "d", "rate", "keys"]

/-- The metadata columns attached to the reconstructed TsGroup (lines
122-135): every container key outside `reservedKeys` whose array length
equals the number of group members. -/
def metaFilter (file : Container) (n : Nat) : Container :=
  file.filter (fun p => !(reservedKeys.contains p.1) && p.2.items.length == n)

/-- One group member (lines 107-116): a `Tsd` of the masked timestamps and
masked data values when a data array was read, else a `Ts` of the masked
timestamps, bound to the shared time support. -/
def mkMember (times index : NpArray) (dataOpt : Option NpArray)
    (support : TimeSupport) (k : NpElem) : GroupMember :=
  match dataOpt with
  | some da =>
      GroupMember.tsd (maskFilter times.items index.items k)
        (maskFilter da.items index.items k) support
  | none => GroupMember.ts (maskFilter times.items index.items k) support

/-- The member-assembly loop `for k in keys: group[k] = ...`
(lines 105-116). -/
def buildGroup (times index : NpArray) (dataOpt : Option NpArray)
    (support : TimeSupport) (ks : List NpElem) :
    List (NpElem × GroupMember) :=
  ks.foldl (fun g k => dictInsert g k (mkMember times index dataOpt support k)) []

/-- The `has_data` / `data` step of the TsGroup branch (lines 95-98): the
presence test inspects key `d`, but the values are then fetched under key
`data`. -/
def dataRead (file : Container) : Except LoadError (Option NpArray) :=
  if hasKey file "d" then (getArr file "data").map some else Except.ok none

/-- `NPZFile.load` (lines 79-158).  Key accesses are performed in the
source's evaluation order, so the first missing key is the one reported. -/
def load (file : Container) : LoadResult :=
  if classify file = "npz" then LoadResult.ok (NapObject.raw file)
  else
    match getArr file "start" with
    | Except.error e => LoadResult.err e
    | Except.ok sArr =>
      match getArr file "end" with
      | Except.error e => LoadResult.err e
      | Except.ok eArr =>
        let support : TimeSupport := ⟨sArr.items, eArr.items⟩
        if classify file = "TsGroup" then
          match getArr file "t" with
          | Except.error e => LoadResult.err e
          | Except.ok times =>
            match getArr file "index" with
            | Except.error e => LoadResult.err e
            | Except.ok index =>
              match dataRead file with
              | Except.error e => LoadResult.err e
              | Except.ok dataOpt =>
                let ks := groupKeys file index
                let members := buildGroup times index dataOpt support ks
                LoadResult.ok (NapObject.tsGroup members
                  (metaFilter file members.length) support)
        else if classify file = "TsdFrame" then
          match getArr file "t" with
          | Except.error e => LoadResult.err e
          | Except.ok t =>
            match getArr file "d" with
            | Except.error e => LoadResult.err e
            | Except.ok d =>
              match getArr file "columns" with
              | Except.error e => LoadResult.err e
              | Except.ok cols =>
                LoadResult.ok (NapObject.tsdFrame t.items d cols.items support)
        else if classify file = "TsdTensor" then
          match getArr file "t" with
          | Except.error e => LoadResult.err e
          | Except.ok t =>
            match getArr file "d" with
            | Except.error e => LoadResult.err e
            | Except.ok d => LoadResult.ok (NapObject.tsdTensor t.items d support)
        else if classify file = "Tsd" then
          match getArr file "t" with
          | Except.error e => LoadResult.err e
          | Except.ok t =>
            match getArr file "d" with
            | Except.error e => LoadResult.err e
            | Except.ok d => LoadResult.ok (NapObject.tsd t.items d support)
        else if classify file = "Ts" then
          match getArr file "t" with
          | Except.error e => LoadResult.err e
          | Except.ok t => LoadResult.ok (NapObject.ts t.items support)
        else if classify file = "IntervalSet" then
          LoadResult.ok (NapObject.intervalSet support)
        else LoadResult.ok (NapObject.raw file)

/-! ### Order facts for `np.unique` -/

theorem NpElem.lt_irrefl (a : NpElem) : NpElem.lt a a = false := by
  cases a with
  | i z => simp [NpElem.lt]
  | s v => simp [NpElem.lt]

theorem NpElem.ne_of_lt {a b : NpElem} (h : NpElem.lt a b = true) : a ≠ b := by
  intro he
  subst he
  rw [NpElem.lt_irrefl] at h
  exact Bool.false_ne_true h

theorem NpElem.lt_transitive {a b c : NpElem} (hab : NpElem.lt a b = true)
    (hbc : NpElem.lt b c = true) : NpElem.lt a c = true := by
  cases a with
  | i za =>
    cases b with
    | i zb =>
      cases c with
      | i zc =>
        rw [NpElem.lt, decide_eq_true_eq] at hab hbc ⊢
        omega
      | s vc => rfl
    | s vb =>
      cases c with
      | i zc => exact absurd hbc (by rw [NpElem.lt]; exact Bool.false_ne_true)
      | s vc => rfl
  | s va =>
    cases b with
    | i zb => exact absurd hab (by rw [NpElem.lt]; exact Bool.false_ne_true)
    | s vb =>
      cases c with
      | i zc => exact absurd hbc (by rw [NpElem.lt]; exact Bool.false_ne_true)
      | s vc =>
        rw [NpElem.lt, decide_eq_true_eq] at hab hbc ⊢
        exact lt_trans hab hbc

theorem NpElem.lt_of_not_lt {a b : NpElem} (h : ¬ NpElem.lt a b = true)
    (hne : a ≠ b) : NpElem.lt b a = true := by
  cases a with
  | i za =>
    cases b with
    | i zb =>
      rw [NpElem.lt, decide_eq_true_eq] at h ⊢
      rcases lt_trichotomy za zb with h1 | h1 | h1
      · exact absurd h1 h
      · exact absurd (congrArg NpElem.i h1) hne
      · exact h1
    | s vb => exact absurd rfl h
  | s va =>
    cases b with
    | i zb => rfl
    | s vb =>
      rw [NpElem.lt, decide_eq_true_eq] at h ⊢
      rcases lt_trichotomy va vb with h1 | h1 | h1
      · exact absurd h1 h
      · exact absurd (congrArg NpElem.s h1) hne
      · exact h1

theorem mem_insertUniq (x a : NpElem) (l : List NpElem) :
    a ∈ insertUniq x l ↔ a = x ∨ a ∈ l := by
  induction l with
  | nil => simp [insertUniq, eq_comm]
  | cons y ys ih =>
    show a ∈ (if NpElem.lt x y then x :: y :: ys
              else if x = y then y :: ys else y :: insertUniq x ys) ↔ _
    by_cases h1 : NpElem.lt x y = true
    · rw [if_pos h1]
      simp only [List.mem_cons]
      try tauto
    · rw [if_neg h1]
      by_cases h2 : x = y
      · rw [if_pos h2]
        subst h2
        simp only [List.mem_cons]
        try tauto
      · rw [if_neg h2]
        simp only [List.mem_cons, ih]
        try tauto

theorem pairwise_insertUniq (x : NpElem) (l : List NpElem)
    (h : l.Pairwise (fun a b => NpElem.lt a b = true)) :
    (insertUniq x l).Pairwise (fun a b => NpElem.lt a b = true) := by
  induction l with
  | nil =>
    show List.Pairwise _ [x]
    simp
  | cons y ys ih =>
    rw [List.pairwise_cons] at h
    obtain ⟨hy, hys⟩ := h
    show List.Pairwise _ (if NpElem.lt x y then x :: y :: ys
        else if x = y then y :: ys else y :: insertUniq x ys)
    by_cases h1 : NpElem.lt x y = true
    · rw [if_pos h1, List.pairwise_cons]
      refine ⟨?_, List.pairwise_cons.mpr ⟨hy, hys⟩⟩
      intro a ha
      rcases List.mem_cons.mp ha with rfl | ha
      · exact h1
      · exact NpElem.lt_transitive h1 (hy a ha)
    · rw [if_neg h1]
      by_cases h2 : x = y
      · rw [if_pos h2]
        exact List.pairwise_cons.mpr ⟨hy, hys⟩
      · rw [if_neg h2, List.pairwise_cons]
        refine ⟨?_, ih hys⟩
        intro a ha
        rcases (mem_insertUniq x a ys).mp ha with rfl | ha
        · exact NpElem.lt_of_not_lt h1 h2
        · exact hy a ha

theorem npUnique_pairwise (xs : List NpElem) :
    (npUnique xs).Pairwise (fun a b => NpElem.lt a b = true) := by
  induction xs with
  | nil => simp [npUnique]
  | cons x xs ih => exact pairwise_insertUniq x _ ih

theorem mem_npUnique (a : NpElem) (xs : List NpElem) :
    a ∈ npUnique xs ↔ a ∈ xs := by
  induction xs with
  | nil => simp [npUnique]
  | cons x xs ih =>
    show a ∈ insertUniq x (npUnique xs) ↔ _
    rw [mem_insertUniq, ih, List.mem_cons]

theorem npUnique_nodup (xs : List NpElem) : (npUnique xs).Nodup := by
  exact (npUnique_pairwise xs).imp (fun h => NpElem.ne_of_lt h)

/-! ### The member-assembly loop -/

theorem foldl_dictInsert (f : NpElem → GroupMember) (ks : List NpElem) :
    ∀ g : List (NpElem × GroupMember), ks.Nodup →
      (∀ k ∈ ks, g.any (fun p => p.1 == k) = false) →
      ks.foldl (fun g k => dictInsert g k (f k)) g =
        g ++ ks.map (fun k => (k, f k)) := by
  induction ks with
  | nil =>
    intro g _ _
    simp
  | cons k ks ih =>
    intro g hnd hg
    rw [List.nodup_cons] at hnd
    have hgk : g.any (fun p => p.1 == k) = false := hg k (List.mem_cons_self k ks)
    have step : dictInsert g k (f k) = g ++ [(k, f k)] := by
      rw [dictInsert, if_neg]
      rw [hgk]
      exact Bool.false_ne_true
    rw [List.foldl_cons, step, ih (g ++ [(k, f k)]) hnd.2]
    · simp
    · intro k' hk'
      rw [List.any_append]
      have h1 : g.any (fun p => p.1 == k') = false :=
        hg k' (List.mem_cons_of_mem k hk')
      have h2 : (k == k') = false := by
        rw [beq_eq_false_iff_ne]
        intro he
        exact hnd.1 (he ▸ hk')
      simp [h1, h2]

theorem buildGroup_eq_map (times index : NpArray) (dataOpt : Option NpArray)
    (support : TimeSupport) (ks : List NpElem) (h : ks.Nodup) :
    buildGroup times index dataOpt support ks =
      ks.map (fun k => (k, mkMember times index dataOpt support k)) := by
  rw [buildGroup, foldl_dictInsert _ ks [] h (fun _ _ => rfl)]
  rfl

/-! ### Reduction lemmas for `classify` and `load` -/

theorem hasKey_exists {file : Container} {k : String}
    (h : hasKey file k = true) : ∃ a, lookupKey file k = some a := by
  rw [hasKey, Option.isSome_iff_exists] at h
  exact h

theorem subsetKeys_hasKey {req : List String} {file : Container}
    (h : subsetKeys req file = true) {k : String} (hk : k ∈ req) :
    hasKey file k = true := by
  rw [subsetKeys, List.all_eq_true] at h
  exact h k hk

theorem explicitType_eq_some {file : Container} {a : NpArray} {v : String}
    (hty : lookupKey file "type" = some a) (hd1 : a.ndim = 1)
    (hit : a.items = [NpElem.s v]) (hv : v ∈ possible) :
    explicitType file = some v := by
  simp only [explicitType, hty]
  rw [hit]
  simp [hd1, hv]

theorem classify_of_explicitType {file : Container} {v : String}
    (h : explicitType file = some v) : classify file = v := by
  rw [classify, h]

theorem load_tsGroup_eq (file : Container) (sa ea ta ia : NpArray)
    (dOpt : Option NpArray)
    (hcl : classify file = "TsGroup")
    (hs : lookupKey file "start" = some sa)
    (he : lookupKey file "end" = some ea)
    (ht : lookupKey file "t" = some ta)
    (hi : lookupKey file "index" = some ia)
    (hd : dataRead file = Except.ok dOpt) :
    load file = LoadResult.ok (NapObject.tsGroup
      (buildGroup ta ia dOpt ⟨sa.items, ea.items⟩ (groupKeys file ia))
      (metaFilter file (buildGroup ta ia dOpt ⟨sa.items, ea.items⟩
        (groupKeys file ia)).length)
      ⟨sa.items, ea.items⟩) := by
  rw [load]
  simp only [hcl, getArr, hs, he, ht, hi, hd, String.reduceEq, reduceIte]

theorem lookup_mem {file : Container} {k : String} {a : NpArray}
    (h : lookupKey file k = some a) : (k, a) ∈ file := by
  rw [lookupKey] at h
  cases hfind : file.find? (fun p => p.1 == k) with
  | none => rw [hfind] at h; exact absurd h (by simp)
  | some p =>
    rw [hfind] at h
    have hp : p ∈ file := List.mem_of_find?_eq_some hfind
    have hk : (p.1 == k) = true := by
      have hsat := List.find?_some hfind
      simpa using hsat
    have : p = (k, a) := by
      obtain ⟨p1, p2⟩ := p
      simp only [Option.some.injEq] at h
      rw [beq_iff_eq] at hk
      simp only at hk h
      rw [hk, h]
    exact this ▸ hp

theorem mem_lookup {file : Container} {k : String} {a : NpArray}
    (hnd : (file.map Prod.fst).Nodup) (h : (k, a) ∈ file) :
    lookupKey file k = some a := by
  induction file with
  | nil => exact absurd h (List.not_mem_nil (k, a))
  | cons p rest ih =>
    rw [List.map_cons, List.nodup_cons] at hnd
    rcases List.mem_cons.mp h with rfl | hrest
    · rw [lookupKey, List.find?_cons_of_pos _ (by simp)]
    · have hkne : p.1 ≠ k := by
        intro he
        exact hnd.1 (he ▸ List.mem_map_of_mem Prod.fst hrest)
      rw [lookupKey, List.find?_cons_of_neg _ (by simpa using hkne)]
      exact ih hnd.2 hrest

theorem mem_metaFilter {file : Container} {n : Nat} {k : String} {a : NpArray} :
    (k, a) ∈ metaFilter file n ↔
      (k, a) ∈ file ∧ k ∉ reservedKeys ∧ a.items.length = n := by
  rw [metaFilter, List.mem_filter]
  simp [List.elem_iff]

/-! ### Concrete containers used by the witnesses -/

/-- A container whose key set matches the TsGroup structural pattern but
whose `type` key explicitly declares `IntervalSet`. -/
def fileOverride : Container :=
  [("type", ⟨1, [NpElem.s "IntervalSet"]⟩), ("t", ⟨1, [NpElem.i 0]⟩),
   ("index", ⟨1, [NpElem.i 0]⟩), ("start", ⟨1, [NpElem.i 0]⟩),
   ("end", ⟨1, [NpElem.i 1]⟩)]

/-- A container with exactly the keys `{t, d, start, end, columns}`. -/
def fileFrame : Container :=
  [("t", ⟨1, [NpElem.i 0, NpElem.i 1]⟩), ("d", ⟨2, [NpElem.i 3, NpElem.i 4]⟩),
   ("start", ⟨1, [NpElem.i 0]⟩), ("end", ⟨1, [NpElem.i 2]⟩),
   ("columns", ⟨1, [NpElem.s "a"]⟩)]

/-- The spec's §8 TsGroup scenario: `t = [1, 2, 11]`, `index = [0, 0, 1]`,
`start = [0]`, `end = [2]` (timestamps scaled to integers). -/
def fileScenario : Container :=
  [("t", ⟨1, [NpElem.i 1, NpElem.i 2, NpElem.i 11]⟩),
   ("index", ⟨1, [NpElem.i 0, NpElem.i 0, NpElem.i 1]⟩),
   ("start", ⟨1, [NpElem.i 0]⟩), ("end", ⟨1, [NpElem.i 2]⟩)]

/-- A container with the keys `{t, d, start, end}` and a one-dimensional
`d` array. -/
def fileTsd : Container :=
  [("t", ⟨1, [NpElem.i 0, NpElem.i 1]⟩), ("d", ⟨1, [NpElem.i 3, NpElem.i 4]⟩),
   ("start", ⟨1, [NpElem.i 0]⟩), ("end", ⟨1, [NpElem.i 2]⟩)]

/-- A container matching no structural pattern (no `start`/`end`). -/
def fileRaw : Container :=
  [("foo", ⟨1, [NpElem.i 0]⟩), ("bar", ⟨1, [NpElem.i 1]⟩)]

/-! ### C1 -/

/-- C1: a container holding a key `type` whose value is a single string
belonging to the known-kind set `{Ts, Tsd, TsdFrame, TsdTensor, TsGroup,
IntervalSet}` is classified at open time as exactly that kind, for every
container, hence regardless of which structural key-set patterns its keys
also satisfy. -/
theorem classify_explicit_override (file : Container) (a : NpArray)
    (v : String) (hty : lookupKey file "type" = some a) (hd1 : a.ndim = 1)
    (hit : a.items = [NpElem.s v]) (hv : v ∈ possible) :
    classify file = v :=
  classify_of_explicitType (explicitType_eq_some hty hd1 hit hv)

/-- Witness for C1 on `fileOverride`: its keys match the TsGroup pattern,
yet the explicit `type` entry `IntervalSet` wins. -/
theorem classify_explicit_override_witness :
    subsetKeys ["t", "start", "end", "index"] fileOverride = true ∧
    classify fileOverride = "IntervalSet" :=
  ⟨by decide, classify_explicit_override fileOverride
    ⟨1, [NpElem.s "IntervalSet"]⟩ "IntervalSet" (by decide) (by decide)
    (by decide) (by decide)⟩

/-! ### C2 -/

/-- C2: without an effective explicit `type` override, structural
classification follows the ordered pattern list with first match winning:
`{t, start, end, index}` gives TsGroup; else `{t, d, start, end, columns}`
gives TsdFrame; else `{t, d, start, end}` gives Tsd or TsdTensor; else
`{t, start, end}` gives Ts; else `{start, end}` gives IntervalSet; else
the unrecognized marker `"npz"`. -/
theorem classify_structural_priority (file : Container)
    (hex : explicitType file = none) :
    (subsetKeys ["t", "start", "end", "index"] file = true →
      classify file = "TsGroup") ∧
    (subsetKeys ["t", "start", "end", "index"] file = false →
      subsetKeys ["t", "d", "start", "end", "columns"] file = true →
      classify file = "TsdFrame") ∧
    (subsetKeys ["t", "start", "end", "index"] file = false →
      subsetKeys ["t", "d", "start", "end", "columns"] file = false →
      subsetKeys ["t", "d", "start", "end"] file = true →
      classify file = "Tsd" ∨ classify file = "TsdTensor") ∧
    (subsetKeys ["t", "start", "end", "index"] file = false →
      subsetKeys ["t", "d", "start", "end", "columns"] file = false →
      subsetKeys ["t", "d", "start", "end"] file = false →
      subsetKeys ["t", "start", "end"] file = true →
      classify file = "Ts") ∧
    (subsetKeys ["t", "start", "end", "index"] file = false →
      subsetKeys ["t", "d", "start", "end", "columns"] file = false →
      subsetKeys ["t", "d", "start", "end"] file = false →
      subsetKeys ["t", "start", "end"] file = false →
      subsetKeys ["start", "end"] file = true →
      classify file = "IntervalSet") ∧
    (subsetKeys ["t", "start", "end", "index"] file = false →
      subsetKeys ["t", "d", "start", "end", "columns"] file = false →
      subsetKeys ["t", "d", "start", "end"] file = false →
      subsetKeys ["t", "start", "end"] file = false →
      subsetKeys ["start", "end"] file = false →
      classify file = "npz") := by
  refine ⟨?_, ?_, ?_, ?_, ?_, ?_⟩
  · intro h1
    simp [classify, hex, h1]
  · intro h1 h2
    simp [classify, hex, h1, h2]
  · intro h1 h2 h3
    by_cases hdim : ((lookupKey file "d").getD emptyArr).ndim = 1
    · exact Or.inl (by simp [classify, hex, h1, h2, h3, hdim])
    · exact Or.inr (by simp [classify, hex, h1, h2, h3, hdim])
  · intro h1 h2 h3 h4
    simp [classify, hex, h1, h2, h3, h4]
  · intro h1 h2 h3 h4 h5
    simp [classify, hex, h1, h2, h3, h4, h5]
  · intro h1 h2 h3 h4 h5
    simp [classify, hex, h1, h2, h3, h4, h5]

/-- Witness for C2 on `fileFrame`: its key set is a superset of the Tsd and
Ts patterns as well, yet it classifies as TsdFrame. -/
theorem classify_structural_priority_witness :
    explicitType fileFrame = none ∧
    subsetKeys ["t", "d", "start", "end"] fileFrame = true ∧
    subsetKeys ["t", "start", "end"] fileFrame = true ∧
    classify fileFrame = "TsdFrame" :=
  ⟨by decide, by decide, by decide,
    (classify_structural_priority fileFrame (by decide)).2.1 (by decide)
      (by decide)⟩

/-! ### C6 -/

/-- C6: without an explicit override, when the keys include
`{t, d, start, end}` but neither `index` nor `columns`, the classification
is Tsd when the `d` array is one-dimensional and TsdTensor when its
dimensionality is at least two, for every container and array size. -/
theorem classify_tsd_vs_tsdtensor_ndim (file : Container) (da : NpArray)
    (hex : explicitType file = none)
    (hd : lookupKey file "d" = some da)
    (ht : hasKey file "t" = true)
    (hs : hasKey file "start" = true)
    (he : hasKey file "end" = true)
    (hni : hasKey file "index" = false)
    (hnc : hasKey file "columns" = false) :
    (da.ndim = 1 → classify file = "Tsd") ∧
    (2 ≤ da.ndim → classify file = "TsdTensor") := by
  have hdk : hasKey file "d" = true := by rw [hasKey, hd]; rfl
  have h1 : subsetKeys ["t", "start", "end", "index"] file = false := by
    simp [subsetKeys, ht, hs, he, hni]
  have h2 : subsetKeys ["t", "d", "start", "end", "columns"] file = false := by
    simp [subsetKeys, ht, hdk, hs, he, hnc]
  have h3 : subsetKeys ["t", "d", "start", "end"] file = true := by
    simp [subsetKeys, ht, hdk, hs, he]
  constructor
  · intro hdim
    simp [classify, hex, h1, h2, h3, hd, hdim]
  · intro hdim
    have hne : ¬ da.ndim = 1 := by omega
    simp [classify, hex, h1, h2, h3, hd, hne]

/-- Witness for C6 on `fileTsd` (one-dimensional `d`) and `fileFrame`
less `columns`, via the two-dimensional variant of `fileTsd`. -/
theorem classify_tsd_vs_tsdtensor_ndim_witness :
    classify fileTsd = "Tsd" ∧
    classify [("t", ⟨1, [NpElem.i 0]⟩), ("d", ⟨2, [NpElem.i 3]⟩),
      ("start", ⟨1, [NpElem.i 0]⟩), ("end", ⟨1, [NpElem.i 2]⟩)] = "TsdTensor" :=
  ⟨(classify_tsd_vs_tsdtensor_ndim fileTsd ⟨1, [NpElem.i 3, NpElem.i 4]⟩
      (by decide) (by decide) (by decide) (by decide) (by decide) (by decide)
      (by decide)).1 (by decide),
   (classify_tsd_vs_tsdtensor_ndim _ ⟨2, [NpElem.i 3]⟩
      (by decide) (by decide) (by decide) (by decide) (by decide) (by decide)
      (by decide)).2 (by decide)⟩

/-! ### C8 -/

/-- C8: a container matching no known key pattern and carrying no explicit
known-kind `type` override classifies as the unrecognized marker `"npz"`,
and `load` succeeds, returning the raw container mapping unchanged (the
unrecognized branch short-circuits before any TimeSupport is built). -/
theorem classify_unrecognized_load_raw (file : Container)
    (hex : explicitType file = none)
    (h1 : subsetKeys ["t", "start", "end", "index"] file = false)
    (h2 : subsetKeys ["t", "d", "start", "end", "columns"] file = false)
    (h3 : subsetKeys ["t", "d", "start", "end"] file = false)
    (h4 : subsetKeys ["t", "start", "end"] file = false)
    (h5 : subsetKeys ["start", "end"] file = false) :
    classify file = "npz" ∧ load file = LoadResult.ok (NapObject.raw file) := by
  have hcl : classify file = "npz" := by
    simp [classify, hex, h1, h2, h3, h4, h5]
  refine ⟨hcl, ?_⟩
  rw [load, if_pos hcl]

/-- Witness for C8 on `fileRaw`. -/
theorem classify_unrecognized_load_raw_witness :
    classify fileRaw = "npz" ∧ load fileRaw = LoadResult.ok (NapObject.raw fileRaw) :=
  classify_unrecognized_load_raw fileRaw (by decide) (by decide) (by decide)
    (by decide) (by decide) (by decide)

/-! ### C3 -/

theorem map_fst_pair {α β : Type} (l : List α) (f : α → β) :
    (l.map (fun k => (k, f k))).map Prod.fst = l := by
  induction l with
  | nil => rfl
  | cons x xs ih =>
    simp only [List.map_cons] at *
    rw [ih]

/-- C3: for a container classified as TsGroup with distinct group
identifiers (the `keys` array or the distinct `index` values), `load`
returns a group with exactly one member per identifier; the member for
identifier `k` holds exactly the timestamps of `t` at the positions where
`index` equals `k`, in their original relative order, and every member is
bound to the shared TimeSupport built from `start`/`end`. -/
theorem load_tsgroup_roundtrip (file : Container) (sa ea ta ia : NpArray)
    (dOpt : Option NpArray)
    (hcl : classify file = "TsGroup")
    (hs : lookupKey file "start" = some sa)
    (he : lookupKey file "end" = some ea)
    (ht : lookupKey file "t" = some ta)
    (hi : lookupKey file "index" = some ia)
    (hd : dataRead file = Except.ok dOpt)
    (hnd : (groupKeys file ia).Nodup) :
    ∃ members meta,
      load file = LoadResult.ok (NapObject.tsGroup members meta
        ⟨sa.items, ea.items⟩) ∧
      members.length = (groupKeys file ia).length ∧
      members.map Prod.fst = groupKeys file ia ∧
      ∀ p ∈ members,
        p.2.times = maskFilter ta.items ia.items p.1 ∧
        p.2.support = ⟨sa.items, ea.items⟩ := by
  refine ⟨_, _, load_tsGroup_eq file sa ea ta ia dOpt hcl hs he ht hi hd,
    ?_, ?_, ?_⟩
  · rw [buildGroup_eq_map _ _ _ _ _ hnd, List.length_map]
  · rw [buildGroup_eq_map _ _ _ _ _ hnd]
    exact map_fst_pair _ _
  · intro p hp
    rw [buildGroup_eq_map _ _ _ _ _ hnd] at hp
    obtain ⟨k, _, rfl⟩ := List.mem_map.mp hp
    cases dOpt with
    | none => exact ⟨rfl, rfl⟩
    | some da => exact ⟨rfl, rfl⟩

/-- Witness for C3 on the spec's §8 scenario container: two identifiers,
group 0 with timestamps `[1, 2]`, group 1 with `[11]`. -/
theorem load_tsgroup_roundtrip_witness :
    (groupKeys fileScenario ⟨1, [NpElem.i 0, NpElem.i 0, NpElem.i 1]⟩).Nodup ∧
    (∃ members meta,
      load fileScenario = LoadResult.ok (NapObject.tsGroup members meta
        ⟨[NpElem.i 0], [NpElem.i 2]⟩) ∧
      members.length = (groupKeys fileScenario
        ⟨1, [NpElem.i 0, NpElem.i 0, NpElem.i 1]⟩).length ∧
      members.map Prod.fst = groupKeys fileScenario
        ⟨1, [NpElem.i 0, NpElem.i 0, NpElem.i 1]⟩ ∧
      ∀ p ∈ members,
        p.2.times = maskFilter [NpElem.i 1, NpElem.i 2, NpElem.i 11]
          [NpElem.i 0, NpElem.i 0, NpElem.i 1] p.1 ∧
        p.2.support = ⟨[NpElem.i 0], [NpElem.i 2]⟩) :=
  ⟨by decide, load_tsgroup_roundtrip fileScenario ⟨1, [NpElem.i 0]⟩
    ⟨1, [NpElem.i 2]⟩ ⟨1, [NpElem.i 1, NpElem.i 2, NpElem.i 11]⟩
    ⟨1, [NpElem.i 0, NpElem.i 0, NpElem.i 1]⟩ none (by decide) (by decide)
    (by decide) (by decide) (by decide) (by rfl) (by decide)⟩

/-! ### C7 -/

/-- A container with an explicit `keys` array that also names an identifier
(`9`) with no matching timestamps. -/
def fileKeys : Container :=
  [("t", ⟨1, [NpElem.i 5]⟩), ("index", ⟨1, [NpElem.i 2]⟩),
   ("keys", ⟨1, [NpElem.i 2, NpElem.i 9]⟩),
   ("start", ⟨1, [NpElem.i 0]⟩), ("end", ⟨1, [NpElem.i 9]⟩)]

/-- C7: the group identifiers used to build the members are exactly the
`keys` array when that key is present (in its order and membership — also
for identifiers with no matching timestamps, since every listed identifier
yields a member), and otherwise the sorted (strictly increasing) list of
distinct values occurring in `index`. -/
theorem load_tsgroup_identifier_selection (file : Container)
    (sa ea ta ia : NpArray) (dOpt : Option NpArray)
    (hcl : classify file = "TsGroup")
    (hs : lookupKey file "start" = some sa)
    (he : lookupKey file "end" = some ea)
    (ht : lookupKey file "t" = some ta)
    (hi : lookupKey file "index" = some ia)
    (hd : dataRead file = Except.ok dOpt)
    (hnd : (groupKeys file ia).Nodup) :
    ∃ members meta,
      load file = LoadResult.ok (NapObject.tsGroup members meta
        ⟨sa.items, ea.items⟩) ∧
      members.map Prod.fst = groupKeys file ia ∧
      (∀ ka, lookupKey file "keys" = some ka → groupKeys file ia = ka.items) ∧
      (lookupKey file "keys" = none → groupKeys file ia = npUnique ia.items) ∧
      (npUnique ia.items).Pairwise (fun a b => NpElem.lt a b = true) ∧
      (npUnique ia.items).Nodup ∧
      (∀ x, x ∈ npUnique ia.items ↔ x ∈ ia.items) := by
  refine ⟨_, _, load_tsGroup_eq file sa ea ta ia dOpt hcl hs he ht hi hd,
    ?_, ?_, ?_, ?_, ?_, ?_⟩
  · rw [buildGroup_eq_map _ _ _ _ _ hnd]
    exact map_fst_pair _ _
  · intro ka hka
    simp only [groupKeys, hka]
  · intro hka
    simp only [groupKeys, hka]
  · exact npUnique_pairwise _
  · exact npUnique_nodup _
  · intro x
    exact mem_npUnique x _

/-- Witness for C7 on `fileKeys`: explicit `keys = [2, 9]` is used as the
identifier list, identifier 9 having no timestamps. -/
theorem load_tsgroup_identifier_selection_witness :
    lookupKey fileKeys "keys" = some ⟨1, [NpElem.i 2, NpElem.i 9]⟩ ∧
    (∃ members meta,
      load fileKeys = LoadResult.ok (NapObject.tsGroup members meta
        ⟨[NpElem.i 0], [NpElem.i 9]⟩) ∧
      members.map Prod.fst = groupKeys fileKeys ⟨1, [NpElem.i 2]⟩ ∧
      (∀ ka, lookupKey fileKeys "keys" = some ka →
        groupKeys fileKeys ⟨1, [NpElem.i 2]⟩ = ka.items) ∧
      (lookupKey fileKeys "keys" = none →
        groupKeys fileKeys ⟨1, [NpElem.i 2]⟩ = npUnique [NpElem.i 2]) ∧
      (npUnique [NpElem.i 2]).Pairwise (fun a b => NpElem.lt a b = true) ∧
      (npUnique [NpElem.i 2]).Nodup ∧
      (∀ x, x ∈ npUnique [NpElem.i 2] ↔ x ∈ [NpElem.i 2])) :=
  ⟨by decide, load_tsgroup_identifier_selection fileKeys ⟨1, [NpElem.i 0]⟩
    ⟨1, [NpElem.i 9]⟩ ⟨1, [NpElem.i 5]⟩ ⟨1, [NpElem.i 2]⟩ none (by decide)
    (by decide) (by decide) (by decide) (by decide) (by rfl) (by decide)⟩

/-! ### C9 -/

/-- A container whose `type` key declares `Tsd` while its key set matches
the TsGroup structural pattern and no `d` key exists. -/
def fileConflict : Container :=
  [("type", ⟨1, [NpElem.s "Tsd"]⟩), ("t", ⟨1, [NpElem.i 0]⟩),
   ("index", ⟨1, [NpElem.i 0]⟩), ("start", ⟨1, [NpElem.i 0]⟩),
   ("end", ⟨1, [NpElem.i 1]⟩)]

/-- C9: when the `type` key holds the single string `Tsd` while the key set
matches the TsGroup pattern `{t, start, end, index}` and no `d` key is
present, classification yields `Tsd` (override wins over structure) and
does not fail; `load` then fails with the missing-key error for `d` (the
spec's MalformedContainerError naming `d`). -/
theorem classify_override_conflict_load_fails (file : Container)
    (hty : lookupKey file "type" = some ⟨1, [NpElem.s "Tsd"]⟩)
    (hpat : subsetKeys ["t", "start", "end", "index"] file = true)
    (hnod : lookupKey file "d" = none) :
    classify file = "Tsd" ∧
    load file = LoadResult.err (LoadError.missingKey "d") := by
  have hcl : classify file = "Tsd" :=
    classify_of_explicitType (explicitType_eq_some hty rfl rfl (by decide))
  have h1 : hasKey file "start" = true := subsetKeys_hasKey hpat (by decide)
  have h2 : hasKey file "end" = true := subsetKeys_hasKey hpat (by decide)
  have h3 : hasKey file "t" = true := subsetKeys_hasKey hpat (by decide)
  obtain ⟨sa, hs⟩ := hasKey_exists h1
  obtain ⟨ea, he⟩ := hasKey_exists h2
  obtain ⟨ta, ht⟩ := hasKey_exists h3
  refine ⟨hcl, ?_⟩
  rw [load]
  simp only [hcl, getArr, hs, he, ht, hnod, String.reduceEq, reduceIte]

/-- Witness for C9 on `fileConflict`. -/
theorem classify_override_conflict_load_fails_witness :
    subsetKeys ["t", "start", "end", "index"] fileConflict = true ∧
    classify fileConflict = "Tsd" ∧
    load fileConflict = LoadResult.err (LoadError.missingKey "d") :=
  ⟨by decide, classify_override_conflict_load_fails fileConflict (by decide)
    (by decide) (by decide)⟩

/-! ### C10 -/

/-- A TsGroup container carrying a `d` key but no `data` key. -/
def fileDOnly : Container :=
  [("t", ⟨1, [NpElem.i 0]⟩), ("index", ⟨1, [NpElem.i 0]⟩),
   ("d", ⟨1, [NpElem.i 7]⟩), ("start", ⟨1, [NpElem.i 0]⟩),
   ("end", ⟨1, [NpElem.i 1]⟩)]

/-- C10: a container classified as TsGroup with the required structural
keys present that contains key `d` but not key `data` makes `load` fail
with the missing-key error for `data` instead of returning a reconstructed
group: the data-presence test inspects key `d` while the values are
fetched under key `data` (lines 95-98). -/
theorem load_tsgroup_d_data_key_mismatch (file : Container)
    (hcl : classify file = "TsGroup")
    (hs : hasKey file "start" = true) (he : hasKey file "end" = true)
    (ht : hasKey file "t" = true) (hi : hasKey file "index" = true)
    (hd : hasKey file "d" = true)
    (hmiss : lookupKey file "data" = none) :
    load file = LoadResult.err (LoadError.missingKey "data") := by
  obtain ⟨sa, hs'⟩ := hasKey_exists hs
  obtain ⟨ea, he'⟩ := hasKey_exists he
  obtain ⟨ta, ht'⟩ := hasKey_exists ht
  obtain ⟨ia, hi'⟩ := hasKey_exists hi
  have hdr : dataRead file = Except.error (LoadError.missingKey "data") := by
    rw [dataRead, if_pos hd, getArr, hmiss]
    rfl
  rw [load]
  simp only [hcl, getArr, hs', he', ht', hi', hdr, String.reduceEq, reduceIte]

/-- Witness for C10 on `fileDOnly`. -/
theorem load_tsgroup_d_data_key_mismatch_witness :
    hasKey fileDOnly "d" = true ∧ hasKey fileDOnly "data" = false ∧
    load fileDOnly = LoadResult.err (LoadError.missingKey "data") :=
  ⟨by decide, by decide, load_tsgroup_d_data_key_mismatch fileDOnly (by decide)
    (by decide) (by decide) (by decide) (by decide) (by decide) (by decide)⟩

/-! ### C4 -/

theorem dataRead_none {file : Container} (h : hasKey file "d" = false) :
    dataRead file = Except.ok none := by
  rw [dataRead, if_neg]
  rw [h]
  exact Bool.false_ne_true

theorem dataRead_some {file : Container} {da : NpArray}
    (h : hasKey file "d" = true) (hda : lookupKey file "data" = some da) :
    dataRead file = Except.ok (some da) := by
  rw [dataRead, if_pos h, getArr, hda]
  rfl

/-- A TsGroup container with a `data` key parallel to `t` but no `d` key. -/
def fileDataNoD : Container :=
  [("t", ⟨1, [NpElem.i 0]⟩), ("index", ⟨1, [NpElem.i 0]⟩),
   ("data", ⟨1, [NpElem.i 7]⟩), ("start", ⟨1, [NpElem.i 0]⟩),
   ("end", ⟨1, [NpElem.i 1]⟩)]

/-- Counterexample to C4: `fileDataNoD` is classified as TsGroup and holds
a `data` array parallel to `t`, yet its reconstructed member is a
timestamps-only `Ts` that carries no data values — the claim's "if a
'data' array is present ... each group member is a Tsd carrying the values
of 'data'" fails, because the presence test inspects key `d`, not `data`
(the `data` array is even attached as a metadata column instead, since its
length happens to match the group count). -/
theorem load_tsgroup_data_without_d_gives_ts :
    classify fileDataNoD = "TsGroup" ∧
    lookupKey fileDataNoD "data" = some ⟨1, [NpElem.i 7]⟩ ∧
    load fileDataNoD = LoadResult.ok (NapObject.tsGroup
      [(NpElem.i 0, GroupMember.ts [NpElem.i 0] ⟨[NpElem.i 0], [NpElem.i 1]⟩)]
      [("data", ⟨1, [NpElem.i 7]⟩)] ⟨[NpElem.i 0], [NpElem.i 1]⟩) := by decide

/-- A TsGroup container with both a `d` key and a `data` key. -/
def fileDAndData : Container :=
  [("t", ⟨1, [NpElem.i 0]⟩), ("index", ⟨1, [NpElem.i 0]⟩),
   ("d", ⟨1, [NpElem.i 7]⟩), ("data", ⟨1, [NpElem.i 9]⟩),
   ("start", ⟨1, [NpElem.i 0]⟩), ("end", ⟨1, [NpElem.i 1]⟩)]

/-- C4 (amended): for a container classified as TsGroup, each group member
is a `Tsd` carrying the values of the `data` array at the positions where
`index` equals the member's identifier exactly when the key `d` is present
(the values being then read under key `data`); when `d` is absent every
member is a timestamps-only `Ts`, even if a `data` key is present. -/
theorem load_tsgroup_member_kind_follows_d (file : Container)
    (sa ea ta ia : NpArray) (dOpt : Option NpArray)
    (hcl : classify file = "TsGroup")
    (hs : lookupKey file "start" = some sa)
    (he : lookupKey file "end" = some ea)
    (ht : lookupKey file "t" = some ta)
    (hi : lookupKey file "index" = some ia)
    (hd : dataRead file = Except.ok dOpt)
    (hnd : (groupKeys file ia).Nodup) :
    ∃ members meta,
      load file = LoadResult.ok (NapObject.tsGroup members meta
        ⟨sa.items, ea.items⟩) ∧
      (hasKey file "d" = false →
        ∀ p ∈ members,
          p.2 = GroupMember.ts (maskFilter ta.items ia.items p.1)
            ⟨sa.items, ea.items⟩) ∧
      (∀ da, hasKey file "d" = true → lookupKey file "data" = some da →
        ∀ p ∈ members,
          p.2 = GroupMember.tsd (maskFilter ta.items ia.items p.1)
            (maskFilter da.items ia.items p.1) ⟨sa.items, ea.items⟩) := by
  refine ⟨_, _, load_tsGroup_eq file sa ea ta ia dOpt hcl hs he ht hi hd,
    ?_, ?_⟩
  · intro hnod p hp
    have hdn : dOpt = none := by
      have h2 := hd.symm.trans (dataRead_none hnod)
      injection h2
    subst hdn
    rw [buildGroup_eq_map _ _ _ _ _ hnd] at hp
    obtain ⟨k, _, rfl⟩ := List.mem_map.mp hp
    rfl
  · intro da hdk hda p hp
    have hds : dOpt = some da := by
      have h2 := hd.symm.trans (dataRead_some hdk hda)
      injection h2
    subst hds
    rw [buildGroup_eq_map _ _ _ _ _ hnd] at hp
    obtain ⟨k, _, rfl⟩ := List.mem_map.mp hp
    rfl

/-- Witness for the amended C4 on `fileDAndData` (`d` present, so members
are `Tsd`s carrying the `data` values). -/
theorem load_tsgroup_member_kind_follows_d_witness :
    hasKey fileDAndData "d" = true ∧
    (∃ members meta,
      load fileDAndData = LoadResult.ok (NapObject.tsGroup members meta
        ⟨[NpElem.i 0], [NpElem.i 1]⟩) ∧
      (hasKey fileDAndData "d" = false →
        ∀ p ∈ members,
          p.2 = GroupMember.ts (maskFilter [NpElem.i 0] [NpElem.i 0] p.1)
            ⟨[NpElem.i 0], [NpElem.i 1]⟩) ∧
      (∀ da, hasKey fileDAndData "d" = true →
        lookupKey fileDAndData "data" = some da →
        ∀ p ∈ members,
          p.2 = GroupMember.tsd (maskFilter [NpElem.i 0] [NpElem.i 0] p.1)
            (maskFilter da.items [NpElem.i 0] p.1)
            ⟨[NpElem.i 0], [NpElem.i 1]⟩)) :=
  ⟨by decide, load_tsgroup_member_kind_follows_d fileDAndData ⟨1, [NpElem.i 0]⟩
    ⟨1, [NpElem.i 1]⟩ ⟨1, [NpElem.i 0]⟩ ⟨1, [NpElem.i 0]⟩
    (some ⟨1, [NpElem.i 9]⟩) (by decide) (by decide) (by decide) (by decide)
    (by decide) (by rfl) (by decide)⟩

/-! ### C5 -/

/-- A TsGroup container with two groups, one extra key of group length
(`label`) and one extra key of timestamp length (`weird`). -/
def fileMeta : Container :=
  [("t", ⟨1, [NpElem.i 1, NpElem.i 2, NpElem.i 11]⟩),
   ("index", ⟨1, [NpElem.i 0, NpElem.i 0, NpElem.i 1]⟩),
   ("start", ⟨1, [NpElem.i 0]⟩), ("end", ⟨1, [NpElem.i 2]⟩),
   ("label", ⟨1, [NpElem.i 10, NpElem.i 20]⟩),
   ("weird", ⟨1, [NpElem.i 1, NpElem.i 2, NpElem.i 3]⟩)]

/-- C5: for a container classified as TsGroup, a container key outside the
reserved set `{start, end, t, index, d, rate, keys}` is attached to the
returned group as a named metadata column exactly when its array length
equals the number of group members; a key of any other length — such as
one per timestamp when that count differs from the group count — is not
attached. -/
theorem load_tsgroup_metadata_iff_group_count (file : Container)
    (sa ea ta ia : NpArray) (dOpt : Option NpArray)
    (hcl : classify file = "TsGroup")
    (hs : lookupKey file "start" = some sa)
    (he : lookupKey file "end" = some ea)
    (ht : lookupKey file "t" = some ta)
    (hi : lookupKey file "index" = some ia)
    (hd : dataRead file = Except.ok dOpt)
    (hnd : (groupKeys file ia).Nodup) :
    ∃ members meta,
      load file = LoadResult.ok (NapObject.tsGroup members meta
        ⟨sa.items, ea.items⟩) ∧
      members.length = (groupKeys file ia).length ∧
      ∀ k a, lookupKey file k = some a → k ∉ reservedKeys →
        ((k, a) ∈ meta ↔ a.items.length = members.length) := by
  refine ⟨_, _, load_tsGroup_eq file sa ea ta ia dOpt hcl hs he ht hi hd,
    ?_, ?_⟩
  · rw [buildGroup_eq_map _ _ _ _ _ hnd, List.length_map]
  · intro k a hka hkr
    constructor
    · intro hm
      exact (mem_metaFilter.mp hm).2.2
    · intro hlen
      exact mem_metaFilter.mpr ⟨lookup_mem hka, hkr, hlen⟩

/-- Witness for C5 on `fileMeta`: two groups; `label` has length 2 and is
attached, `weird` has length 3 (one per timestamp) and is rejected. -/
theorem load_tsgroup_metadata_iff_group_count_witness :
    lookupKey fileMeta "label" = some ⟨1, [NpElem.i 10, NpElem.i 20]⟩ ∧
    lookupKey fileMeta "weird" = some ⟨1, [NpElem.i 1, NpElem.i 2, NpElem.i 3]⟩ ∧
    (∃ members meta,
      load fileMeta = LoadResult.ok (NapObject.tsGroup members meta
        ⟨[NpElem.i 0], [NpElem.i 2]⟩) ∧
      members.length = (groupKeys fileMeta
        ⟨1, [NpElem.i 0, NpElem.i 0, NpElem.i 1]⟩).length ∧
      ∀ k a, lookupKey fileMeta k = some a → k ∉ reservedKeys →
        ((k, a) ∈ meta ↔ a.items.length = members.length)) :=
  ⟨by decide, by decide, load_tsgroup_metadata_iff_group_count fileMeta
    ⟨1, [NpElem.i 0]⟩ ⟨1, [NpElem.i 2]⟩
    ⟨1, [NpElem.i 1, NpElem.i 2, NpElem.i 11]⟩
    ⟨1, [NpElem.i 0, NpElem.i 0, NpElem.i 1]⟩ none (by decide) (by decide)
    (by decide) (by decide) (by decide) (by rfl) (by decide)⟩
